import Mathlib

/-!
Verification development for the data-fetching layer of the job-board
frontend.  The query keys, hook query functions and the retry configuration
are embedded from the repository's source
(`src/frontend/src/hooks/useJobs.ts`, `src/frontend/src/hooks/useApplications.ts`
and the query-client configuration file).  The cache engine itself (entry
store, staleness evaluator, fetch coordinator, invalidation broadcaster,
garbage collector) is supplied by an external library and is not part of the
repository, so it is modelled from the specification (spec.md sections 3-4.5).
-/

/-- Cache keys are ordered arrays of primitive values; every key used by the
claims has only string components (`useJobs.ts` lines 5-10,
`useApplications.ts` lines 5-11). -/
abbrev Key : Type := List String

namespace jobKeys

/-- `all: ['jobs'] as const` (`useJobs.ts` line 6). -/
def all : Key := ["jobs"]

/-- `active: ['jobs', 'active'] as const` (`useJobs.ts` line 7). -/
def active : Key := ["jobs", "active"]

/-- `allJobs: ['jobs', 'all'] as const` (`useJobs.ts` line 8). -/
def allJobs : Key := ["jobs", "all"]

/-- `detail: (id) => ['jobs', 'detail', id] as const` (`useJobs.ts` line 9). -/
def detail (id : String) : Key := ["jobs", "detail", id]

end jobKeys

namespace applicationKeys

/-- `all: ['applications'] as const` (`useApplications.ts` line 6). -/
def all : Key := ["applications"]

/-- `myApplications: ['applications', 'my'] as const` (`useApplications.ts` line 7). -/
def myApplications : Key := ["applications", "my"]

/-- `status: (jobId) => ['applications', 'status', jobId] as const`
(`useApplications.ts` line 10). -/
def status (jobId : String) : Key := ["applications", "status", jobId]

end applicationKeys

/-- Modelled from the spec: section 3 CacheKey, "prefix-matching is used for
invalidation (a key array `[a]` matches and invalidates any stored key
beginning `[a, ...]`)"; a key also matches itself (equality). -/
def keyMatches (pfx k : Key) : Bool := decide (pfx <+: k)

/-- Modelled from the spec: section 3 CacheEntry,
`state` is one of EMPTY, FETCHING, FRESH, STALE, ERROR. -/
inductive EState where
  | EMPTY
  | FETCHING
  | FRESH
  | STALE
  | ERROR
deriving DecidableEq

/-- Modelled from the spec: the fields of a CacheEntry (section 3) that the
Invalidation Broadcaster reads and writes: `value`, `state` and
`subscriberCount`. -/
structure IEntry (V : Type) where
  value : Option V
  state : EState
  subscriberCount : Nat
deriving DecidableEq

/-- Modelled from the spec: the cache state seen by the Invalidation
Broadcaster (section 4.4): the Entry Store (a mapping from keys to entries)
together with, per key, whether an InFlightFetch is active. -/
@[ext] structure CState (V : Type) where
  store : Key → Option (IEntry V)
  inFlight : Key → Bool

/-- Modelled from the spec: section 4.4, the per-entry effect of
`invalidate(keyOrPrefix)`: "for every entry whose key equals or is prefixed
by `keyOrPrefix`, set `state = STALE` (unless MISSING)"; by section 4.2 an
entry with `state == EMPTY` is the MISSING case. -/
def invalidateEntry {V : Type} (pfx k : Key) (e : IEntry V) : IEntry V :=
  if keyMatches pfx k = true ∧ e.state ≠ EState.EMPTY then
    { e with state := EState.STALE }
  else e

/-- Modelled from the spec: section 4.4, "For every such entry with
`subscriberCount > 0`, trigger the Fetch Coordinator's background refetch
path (4.3 step 3) immediately"; step 3 starts a fetch only when none is in
flight, so triggering amounts to ensuring an InFlightFetch for the key.
Entries with zero subscribers are not eagerly refetched. -/
def refetchTrigger {V : Type} (pfx k : Key) : Option (IEntry V) → Bool
  | none => false
  | some e =>
    keyMatches pfx k && decide (e.state ≠ EState.EMPTY)
      && decide (e.subscriberCount ≠ 0)

/-- Modelled from the spec: section 4.4 Invalidation Broadcaster
`invalidate(keyOrPrefix)`: mark every matching non-MISSING entry STALE and
eagerly trigger the background refetch path for matching subscribed
entries. -/
def invalidate {V : Type} (s : CState V) (pfx : Key) : CState V :=
  { store := fun k => (s.store k).map (invalidateEntry pfx k),
    inFlight := fun k => s.inFlight k || refetchTrigger pfx k (s.store k) }

/-- Modelled from the spec: the fields of a CacheEntry (section 3) that the
Staleness Evaluator and the Fetch Coordinator read and write: `value`
(absent until the first successful fetch), `fetchedAt`, `state`, the last
fetch failure `err`, and the per-entry freshness window `staleTimeMs`. -/
structure FEntry (V : Type) where
  value : Option V
  fetchedAt : Nat
  state : EState
  err : Option String
  staleTimeMs : Nat
deriving DecidableEq

/-- Modelled from the spec: the three classifications produced by the
Staleness Evaluator (sections 4.2 and 4.3). -/
inductive StaleClass where
  | MISSING
  | FRESH
  | STALE
deriving DecidableEq

/-- Modelled from the spec: section 4.2 Staleness Evaluator
`classify(entry, now)`: an entry with `state == EMPTY` is treated as MISSING
(not STALE); otherwise FRESH iff `now - entry.fetchedAt < entry.staleTimeMs`,
else STALE. -/
def classify {V : Type} (e : FEntry V) (now : Nat) : StaleClass :=
  if e.state = EState.EMPTY then StaleClass.MISSING
  else if now - e.fetchedAt < e.staleTimeMs then StaleClass.FRESH
  else StaleClass.STALE

/-- Modelled from the spec: the state owned by the Fetch Coordinator
(sections 3 and 4.3): the Entry Store, the set of InFlightFetches (a list of
keys paired with the identifiers of their attached followers), and a counter
of underlying `fetchFn` invocations, used to state the deduplication
properties. -/
structure Coord (V : Type) where
  entries : Key → Option (FEntry V)
  inFlight : List (Key × List Nat)
  fetchCount : Nat

/-- Whether the in-flight list holds a fetch for key `k`. -/
def flHas (fl : List (Key × List Nat)) (k : Key) : Bool :=
  fl.any (fun p => decide (p.1 = k))

/-- The follower list of the first in-flight fetch for key `k`, if any. -/
def lookupFl : List (Key × List Nat) → Key → Option (List Nat)
  | [], _ => none
  | p :: rest, k => if p.1 = k then some p.2 else lookupFl rest k

/-- Modelled from the spec: section 4.3 step 4, a late requester attaches to
the existing InFlightFetch for the key as a follower. -/
def attachFollower (fl : List (Key × List Nat)) (k : Key) (caller : Nat) :
    List (Key × List Nat) :=
  fl.map (fun p => if p.1 = k then (p.1, p.2 ++ [caller]) else p)

/-- Remove the in-flight fetch for key `k` (on resolution or rejection). -/
def removeFl (fl : List (Key × List Nat)) (k : Key) : List (Key × List Nat) :=
  fl.filter (fun p => !(decide (p.1 = k)))

/-- Whether an InFlightFetch exists for key `k`. -/
def hasInFlight {V : Type} (c : Coord V) (k : Key) : Bool := flHas c.inFlight k

/-- The entry written when a fetch starts: the existing entry moves to state
FETCHING; a missing entry is created in state FETCHING with no value yet
(section 3: created on first subscription; section 4.3 step 1). -/
def newFetchingEntry {V : Type} (old : Option (FEntry V)) (staleMs : Nat) :
    FEntry V :=
  match old with
  | some e => { e with state := EState.FETCHING }
  | none =>
    { value := none, fetchedAt := 0, state := EState.FETCHING, err := none,
      staleTimeMs := staleMs }

/-- Modelled from the spec: starting a new InFlightFetch for key `k`: the
entry enters state FETCHING, the in-flight list gains the fetch with its
initial followers, and `fetchFn` is invoked once (the invocation counter
increments). -/
def startFetch {V : Type} (c : Coord V) (k : Key) (followers : List Nat)
    (staleMs : Nat) : Coord V :=
  { entries := fun k' =>
      if k' = k then some (newFetchingEntry (c.entries k) staleMs)
      else c.entries k',
    inFlight := c.inFlight ++ [(k, followers)],
    fetchCount := c.fetchCount + 1 }

/-- The outcome a requester observes synchronously: either a value returned
immediately, or the caller suspends awaiting the in-flight fetch. -/
inductive ReqResult (V : Type) where
  | immediate (v : V)
  | suspended
deriving DecidableEq

/-- Modelled from the spec: section 4.3 Fetch Coordinator `request`:
entry present with a cached value and FRESH: return it, no fetch (step 2);
present with a value but not FRESH: return it immediately and, when no
InFlightFetch exists for the key, start one in the background (step 3);
no cached value: suspend, attaching to the existing InFlightFetch when one
exists (step 4) and otherwise starting one (step 1).  `staleMs` is the
configured freshness window used when the entry must be created. -/
def request {V : Type} (c : Coord V) (caller : Nat) (k : Key)
    (staleMs now : Nat) : ReqResult V × Coord V :=
  match c.entries k with
  | some e =>
    match e.value with
    | some v =>
      if classify e now = StaleClass.FRESH then (ReqResult.immediate v, c)
      else if hasInFlight c k then (ReqResult.immediate v, c)
      else (ReqResult.immediate v, startFetch c k [] staleMs)
    | none =>
      if hasInFlight c k then
        (ReqResult.suspended,
          { c with inFlight := attachFollower c.inFlight k caller })
      else (ReqResult.suspended, startFetch c k [caller] staleMs)
  | none =>
    if hasInFlight c k then
      (ReqResult.suspended,
        { c with inFlight := attachFollower c.inFlight k caller })
    else (ReqResult.suspended, startFetch c k [caller] staleMs)

/-- Modelled from the spec: section 4.3 on success: update the entry
(`value`, `fetchedAt = now`, `state = FRESH`, clear `error`), drop the
InFlightFetch and resolve all its followers together; the returned list is
the followers that all receive this single result. -/
def resolveFetch {V : Type} (c : Coord V) (k : Key) (v : V) (now : Nat) :
    Coord V × List Nat :=
  ({ entries := fun k' =>
       if k' = k then
         (c.entries k').map (fun e =>
           { value := some v, fetchedAt := now, state := EState.FRESH,
             err := none, staleTimeMs := e.staleTimeMs })
       else c.entries k',
     inFlight := removeFl c.inFlight k,
     fetchCount := c.fetchCount },
   (lookupFl c.inFlight k).getD [])

/-- Modelled from the spec: section 4.3 on failure (after retries are
exhausted): set `state = ERROR`, retain the previous `value` if any
(stale-while-error), record the error, drop the InFlightFetch and reject all
its followers together with the final error. -/
def rejectFetch {V : Type} (c : Coord V) (k : Key) (msg : String) :
    Coord V × List Nat :=
  ({ entries := fun k' =>
       if k' = k then
         (c.entries k').map (fun e =>
           { e with state := EState.ERROR, err := some msg })
       else c.entries k',
     inFlight := removeFl c.inFlight k,
     fetchCount := c.fetchCount },
   (lookupFl c.inFlight k).getD [])

/-- `N` simultaneous requests for the same key: the requests run back to
back with no fetch resolution in between. -/
def requestN {V : Type} (c : Coord V) (callers : List Nat) (k : Key)
    (staleMs now : Nat) : Coord V :=
  match callers with
  | [] => c
  | caller :: rest =>
    requestN (request c caller k staleMs now).2 rest k staleMs now

/-- Modelled from the spec: the invariant of section 3: at most one
InFlightFetch exists per key at any instant (the in-flight keys are
duplicate-free) and `state == FETCHING` iff an InFlightFetch exists for the
key. -/
def CoordInv {V : Type} (c : Coord V) : Prop :=
  (c.inFlight.map Prod.fst).Nodup ∧
  ∀ k, (∃ e, c.entries k = some e ∧ e.state = EState.FETCHING) ↔
    flHas c.inFlight k = true

/-- `retry: 1` from the query-client configuration
(`src/unnamed/part_002`, `defaultOptions.queries.retry`): a failed fetch is
retried once, so at most `retryCount + 1` invocations are made. -/
def retryCount : Nat := 1

/-- `retryDelay: (attemptIndex) => Math.min(1000 * 2 ** attemptIndex, 30000)`
from the query-client configuration (`src/unnamed/part_002`). -/
def retryDelay (attemptIndex : Nat) : Nat := min (1000 * 2 ^ attemptIndex) 30000

/-- Modelled from the spec: section 4.3 retry policy (configurable max
attempt count): invoke `fetchFn` at attempt index `i`; on success stop, on
failure retry while retries remain.  Returns the final outcome together with
the number of `fetchFn` invocations made (the delays between attempts do not
affect the outcome or the count and are not modelled here; their values are
`retryDelay`). -/
def fetchWithRetry {V : Type} (fetchFn : Nat → Except String V) :
    Nat → Nat → Except String V × Nat
  | i, left =>
    match fetchFn i with
    | Except.ok v => (Except.ok v, 1)
    | Except.error e =>
      match left with
      | 0 => (Except.error e, 1)
      | Nat.succ left' =>
        let r := fetchWithRetry fetchFn (i + 1) left'
        (r.1, r.2 + 1)

/-- Modelled from the spec: settle the InFlightFetch for key `k` by running
`fetchFn` under the configured retry policy (`retryCount` retries) and
applying the success or failure path of section 4.3.  Returns the new
coordinator state, the followers settled together, and the total number of
`fetchFn` invocations. -/
def settleFetch {V : Type} (c : Coord V) (k : Key)
    (fetchFn : Nat → Except String V) (now : Nat) :
    Coord V × List Nat × Nat :=
  match fetchWithRetry fetchFn 0 retryCount with
  | (Except.ok v, n) => ((resolveFetch c k v now).1, (resolveFetch c k v now).2, n)
  | (Except.error msg, n) =>
    ((rejectFetch c k msg).1, (rejectFetch c k msg).2, n)

/-- Modelled from the spec: the fields of a CacheEntry (section 3) that the
Garbage Collector reads (section 4.5): `subscriberCount`,
`lastSubscriberReleasedAt` and the per-entry idle window `gcTimeMs`. -/
structure GCEntry where
  subscriberCount : Nat
  lastSubscriberReleasedAt : Nat
  gcTimeMs : Nat
deriving DecidableEq

/-- Modelled from the spec: section 4.5 Garbage Collector `sweep(now)`:
remove every entry with `subscriberCount == 0` whose idle duration has
reached `gcTimeMs`, except entries with an active InFlightFetch (never
removed, to avoid orphaning followers). -/
def sweep (store : List (Key × GCEntry)) (inFlightKeys : List Key)
    (now : Nat) : List (Key × GCEntry) :=
  store.filter (fun p =>
    !(decide (p.2.subscriberCount = 0 ∧
        p.2.gcTimeMs ≤ now - p.2.lastSubscriberReleasedAt ∧
        p.1 ∉ inFlightKeys)))

/-- The result of `applicationApi.checkApplicationStatus`; the hook's query
function can also produce `{ applied: false }` itself
(`useApplications.ts` line 17). -/
structure StatusResult where
  applied : Bool
deriving DecidableEq

/-- JavaScript falsiness of the hooks' `jobId: string | undefined`
parameter: `!jobId` is true exactly for `undefined` and the empty string. -/
def isBlankId : Option String → Bool
  | none => true
  | some s => s == ""

/-- `enabled: !!jobId` of `useApplicationStatus` (`useApplications.ts`
line 21): the query only runs when `jobId` is truthy. -/
def useApplicationStatusEnabled (jobId : Option String) : Bool :=
  !(isBlankId jobId)

/-- The query function of `useApplicationStatus` (`useApplications.ts`
lines 16-19): with a falsy `jobId` it returns `{ applied: false }` without
calling the remote API; otherwise it calls
`applicationApi.checkApplicationStatus(jobId)`.  The Boolean component
records whether the remote API was invoked. -/
def useApplicationStatusQueryFn (api : String → StatusResult)
    (jobId : Option String) : Except String StatusResult × Bool :=
  if isBlankId jobId then (Except.ok { applied := false }, false)
  else (Except.ok (api (jobId.getD "")), true)

/-- `enabled: !!jobId` of `useJob` (`useJobs.ts` line 45). -/
def useJobEnabled (jobId : Option String) : Bool := !(isBlankId jobId)

/-- The query function of `useJob` (`useJobs.ts` lines 40-44): with a falsy
`jobId` it throws `Error('Job ID is required')`; otherwise it calls
`jobApi.getJobById(jobId)` and returns `response.job`.  The Boolean
component records whether the remote API was invoked. -/
def useJobQueryFn {J : Type} (api : String → J) (jobId : Option String) :
    Except String J × Bool :=
  if isBlankId jobId then (Except.error "Job ID is required", false)
  else (Except.ok (api (jobId.getD "")), true)

/-- A stored entry for the active-jobs list that was never fetched
(state EMPTY), used to exercise the MISSING case of invalidation. -/
def jobsActiveEmptyEntry : IEntry Unit :=
  { value := none, state := EState.EMPTY, subscriberCount := 1 }

/-- A stored entry for the active-jobs list holding a fetched value. -/
def jobsActiveFreshEntry : IEntry Unit :=
  { value := some (), state := EState.FRESH, subscriberCount := 1 }

/-- A stored entry for the applications list holding a fetched value. -/
def applicationsFreshEntry : IEntry Unit :=
  { value := some (), state := EState.FRESH, subscriberCount := 1 }

/-- A cache state whose only entry, under the active-jobs key, was never
fetched. -/
def cexState : CState Unit :=
  { store := fun k => if k = jobKeys.active then some jobsActiveEmptyEntry else none,
    inFlight := fun _ => false }

/-- A cache state holding a fetched active-jobs entry and a fetched
applications entry. -/
def sampleCState : CState Unit :=
  { store := fun k =>
      if k = jobKeys.active then some jobsActiveFreshEntry
      else if k = applicationKeys.all then some applicationsFreshEntry
      else none,
    inFlight := fun _ => false }

/-- The empty coordinator state: no entries, no in-flight fetches, no
`fetchFn` invocations yet. -/
def coord0 : Coord Unit := { entries := fun _ => none, inFlight := [], fetchCount := 0 }

/-- A coordinator entry that holds a stale value fetched at time 0 with a
freshness window of 1000 ms. -/
def staleUnitEntry : FEntry Unit :=
  { value := some (), fetchedAt := 0, state := EState.STALE, err := none,
    staleTimeMs := 1000 }

/-- A coordinator whose only entry is `staleUnitEntry` under the active-jobs
key, with no fetch in flight. -/
def coordStale : Coord Unit :=
  { entries := fun k => if k = jobKeys.active then some staleUnitEntry else none,
    inFlight := [],
    fetchCount := 0 }

/-- A garbage-collection entry with no subscribers, released at time 0,
with a 10-minute idle window (the configured `gcTime` of the query client). -/
def idleGCEntry : GCEntry :=
  { subscriberCount := 0, lastSubscriberReleasedAt := 0, gcTimeMs := 600000 }

/-- In-flight membership distributes over list append. -/
theorem flHas_append (a b : List (Key × List Nat)) (k : Key) :
    flHas (a ++ b) k = (flHas a k || flHas b k) := by
  simp [flHas, List.any_append]

/-- In-flight membership for a singleton in-flight list. -/
theorem flHas_singleton (k k' : Key) (fs : List Nat) :
    flHas [(k, fs)] k' = decide (k = k') := by
  simp [flHas]

/-- Attaching a follower does not change the in-flight keys. -/
theorem attachFollower_keys (fl : List (Key × List Nat)) (k : Key)
    (caller : Nat) :
    (attachFollower fl k caller).map Prod.fst = fl.map Prod.fst := by
  induction fl with
  | nil => rfl
  | cons p rest ih =>
    show Prod.fst (if p.1 = k then (p.1, p.2 ++ [caller]) else p) ::
        (attachFollower rest k caller).map Prod.fst =
      p.1 :: rest.map Prod.fst
    rw [ih]
    by_cases h : p.1 = k
    · rw [if_pos h]
    · rw [if_neg h]

/-- In-flight membership depends only on the in-flight keys. -/
theorem flHas_eq_any_keys (fl : List (Key × List Nat)) (k : Key) :
    flHas fl k = (fl.map Prod.fst).any (fun a => decide (a = k)) := by
  induction fl with
  | nil => rfl
  | cons p rest ih =>
    show (decide (p.1 = k) || flHas rest k) =
      (decide (p.1 = k) || (rest.map Prod.fst).any (fun a => decide (a = k)))
    rw [ih]

/-- Attaching a follower preserves in-flight membership for every key. -/
theorem flHas_attach (fl : List (Key × List Nat)) (k : Key) (caller : Nat)
    (k' : Key) :
    flHas (attachFollower fl k caller) k' = flHas fl k' := by
  rw [flHas_eq_any_keys, flHas_eq_any_keys, attachFollower_keys]

/-- In-flight membership as membership among the in-flight keys. -/
theorem flHas_iff_mem_keys (fl : List (Key × List Nat)) (k : Key) :
    flHas fl k = true ↔ k ∈ fl.map Prod.fst := by
  simp only [flHas, List.any_eq_true, decide_eq_true_eq, List.mem_map]

/-- A key with a follower list in flight is in flight. -/
theorem flHas_of_lookupFl (fl : List (Key × List Nat)) (k : Key)
    (fs : List Nat) (h : lookupFl fl k = some fs) : flHas fl k = true := by
  induction fl with
  | nil => exact absurd h (by simp [lookupFl])
  | cons p rest ih =>
    by_cases hp : p.1 = k
    · simp [flHas, hp]
    · rw [show lookupFl (p :: rest) k =
          (if p.1 = k then some p.2 else lookupFl rest k) from rfl,
        if_neg hp] at h
      show (decide (p.1 = k) || flHas rest k) = true
      rw [ih h, Bool.or_true]

/-- Attaching a follower appends it to the follower list of its key. -/
theorem lookupFl_attach_self (fl : List (Key × List Nat)) (k : Key)
    (caller : Nat) :
    lookupFl (attachFollower fl k caller) k =
      (lookupFl fl k).map (fun fs => fs ++ [caller]) := by
  induction fl with
  | nil => rfl
  | cons p rest ih =>
    by_cases h : p.1 = k
    · simp [attachFollower, lookupFl, h]
    · simp only [attachFollower, List.map_cons, if_neg h]
      show (if p.1 = k then some p.2 else
          lookupFl (attachFollower rest k caller) k) = _
      rw [if_neg h, ih]
      show _ = (if p.1 = k then some p.2 else lookupFl rest k).map _
      rw [if_neg h]

/-- Appending a fresh in-flight fetch makes its followers the looked-up
follower list of its key. -/
theorem lookupFl_append_right (fl : List (Key × List Nat)) (k : Key)
    (fs : List Nat) (h : flHas fl k = false) :
    lookupFl (fl ++ [(k, fs)]) k = some fs := by
  induction fl with
  | nil => simp [lookupFl]
  | cons p rest ih =>
    simp only [flHas, List.any_cons, Bool.or_eq_false_iff,
      decide_eq_false_iff_not] at h
    rw [List.cons_append]
    show (if p.1 = k then some p.2 else lookupFl (rest ++ [(k, fs)]) k) =
      some fs
    rw [if_neg h.1]
    exact ih h.2

/-- Removing the in-flight fetch of a key clears membership for that key. -/
theorem flHas_removeFl_self (fl : List (Key × List Nat)) (k : Key) :
    flHas (removeFl fl k) k = false := by
  induction fl with
  | nil => rfl
  | cons p rest ih =>
    by_cases h : p.1 = k
    · simp only [removeFl, List.filter_cons] at ih ⊢
      rw [if_neg (by simp [h])]
      exact ih
    · simp only [removeFl, List.filter_cons] at ih ⊢
      rw [if_pos (by simp [h])]
      show (decide (p.1 = k) || flHas (List.filter _ rest) k) = false
      rw [decide_eq_false h, Bool.false_or]
      exact ih

/-- Removing the in-flight fetch of one key does not change membership for
other keys. -/
theorem flHas_removeFl_ne (fl : List (Key × List Nat)) {k k' : Key}
    (h : k' ≠ k) : flHas (removeFl fl k) k' = flHas fl k' := by
  induction fl with
  | nil => rfl
  | cons p rest ih =>
    show flHas (List.filter _ (p :: rest)) k' = flHas (p :: rest) k'
    rw [List.filter_cons]
    by_cases hp : p.1 = k
    · rw [if_neg (by simp [hp])]
      show flHas (removeFl rest k) k' = flHas (p :: rest) k'
      rw [ih]
      show flHas rest k' = (decide (p.1 = k') || flHas rest k')
      rw [decide_eq_false (fun hh => h (hp.symm.trans hh).symm),
        Bool.false_or]
    · rw [if_pos (by simp [hp])]
      show (decide (p.1 = k') || flHas (removeFl rest k) k') =
        (decide (p.1 = k') || flHas rest k')
      rw [ih]

/-- Removing an in-flight fetch keeps the in-flight keys duplicate-free. -/
theorem removeFl_keys_nodup (fl : List (Key × List Nat)) (k : Key)
    (h : (fl.map Prod.fst).Nodup) :
    ((removeFl fl k).map Prod.fst).Nodup :=
  h.sublist ((List.filter_sublist fl).map Prod.fst)

/-- The entry written on fetch start is in state FETCHING. -/
theorem newFetchingEntry_state {V : Type} (o : Option (FEntry V))
    (staleMs : Nat) :
    (newFetchingEntry o staleMs).state = EState.FETCHING := by
  cases o <;> rfl

/-- Attaching a follower preserves the coordinator invariant. -/
theorem coordInv_attach {V : Type} (c : Coord V) (k : Key) (caller : Nat)
    (hInv : CoordInv c) :
    CoordInv { c with inFlight := attachFollower c.inFlight k caller } := by
  obtain ⟨hnd, hiff⟩ := hInv
  constructor
  · show ((attachFollower c.inFlight k caller).map Prod.fst).Nodup
    rw [attachFollower_keys]
    exact hnd
  · intro k'
    show (∃ e, c.entries k' = some e ∧ e.state = EState.FETCHING) ↔
      flHas (attachFollower c.inFlight k caller) k' = true
    rw [flHas_attach]
    exact hiff k'

/-- Starting a fetch for a key with none in flight preserves the
coordinator invariant. -/
theorem coordInv_startFetch {V : Type} (c : Coord V) (k : Key)
    (followers : List Nat) (staleMs : Nat) (hInv : CoordInv c)
    (hnif : hasInFlight c k = false) :
    CoordInv (startFetch c k followers staleMs) := by
  obtain ⟨hnd, hiff⟩ := hInv
  have hknot : k ∉ c.inFlight.map Prod.fst := by
    intro hk
    rw [← flHas_iff_mem_keys] at hk
    rw [hasInFlight, hk] at hnif
    exact Bool.noConfusion hnif
  constructor
  · show ((c.inFlight ++ [(k, followers)]).map Prod.fst).Nodup
    rw [List.map_append, List.nodup_append]
    refine ⟨hnd, List.nodup_singleton k, ?_⟩
    intro a ha hb
    rw [show ([(k, followers)].map Prod.fst) = [k] from rfl,
      List.mem_singleton] at hb
    subst hb
    exact hknot ha
  · intro k'
    show (∃ e, (if k' = k then some (newFetchingEntry (c.entries k) staleMs)
        else c.entries k') = some e ∧ e.state = EState.FETCHING) ↔
      flHas (c.inFlight ++ [(k, followers)]) k' = true
    rw [flHas_append, flHas_singleton]
    by_cases hk : k' = k
    · subst hk
      rw [if_pos rfl]
      refine iff_of_true ⟨_, rfl, newFetchingEntry_state _ _⟩ ?_
      simp
    · rw [if_neg hk,
        decide_eq_false (fun hh : k = k' => hk hh.symm), Bool.or_false]
      exact hiff k'

/-- `request` preserves the coordinator invariant. -/
theorem coordInv_request {V : Type} (c : Coord V) (caller : Nat) (k : Key)
    (staleMs now : Nat) (hInv : CoordInv c) :
    CoordInv (request c caller k staleMs now).2 := by
  cases hek : c.entries k with
  | none =>
    cases hif : hasInFlight c k with
    | true =>
      have hreq : (request c caller k staleMs now).2 =
          { c with inFlight := attachFollower c.inFlight k caller } := by
        simp [request, hek, hif]
      rw [hreq]
      exact coordInv_attach c k caller hInv
    | false =>
      have hreq : (request c caller k staleMs now).2 =
          startFetch c k [caller] staleMs := by
        simp [request, hek, hif]
      rw [hreq]
      exact coordInv_startFetch c k [caller] staleMs hInv hif
  | some e =>
    cases hev : e.value with
    | none =>
      cases hif : hasInFlight c k with
      | true =>
        have hreq : (request c caller k staleMs now).2 =
            { c with inFlight := attachFollower c.inFlight k caller } := by
          simp [request, hek, hev, hif]
        rw [hreq]
        exact coordInv_attach c k caller hInv
      | false =>
        have hreq : (request c caller k staleMs now).2 =
            startFetch c k [caller] staleMs := by
          simp [request, hek, hev, hif]
        rw [hreq]
        exact coordInv_startFetch c k [caller] staleMs hInv hif
    | some v =>
      by_cases hcl : classify e now = StaleClass.FRESH
      · have hreq : (request c caller k staleMs now).2 = c := by
          simp [request, hek, hev, hcl]
        rw [hreq]
        exact hInv
      · cases hif : hasInFlight c k with
        | true =>
          have hreq : (request c caller k staleMs now).2 = c := by
            simp [request, hek, hev, hcl, hif]
          rw [hreq]
          exact hInv
        | false =>
          have hreq : (request c caller k staleMs now).2 =
              startFetch c k [] staleMs := by
            simp [request, hek, hev, hcl, hif]
          rw [hreq]
          exact coordInv_startFetch c k [] staleMs hInv hif

/-- Resolving a fetch preserves the coordinator invariant. -/
theorem coordInv_resolve {V : Type} (c : Coord V) (k : Key) (v : V)
    (now : Nat) (hInv : CoordInv c) : CoordInv (resolveFetch c k v now).1 := by
  obtain ⟨hnd, hiff⟩ := hInv
  constructor
  · show ((removeFl c.inFlight k).map Prod.fst).Nodup
    exact removeFl_keys_nodup c.inFlight k hnd
  · intro k'
    show (∃ e, (if k' = k then (c.entries k').map _ else c.entries k') =
        some e ∧ e.state = EState.FETCHING) ↔
      flHas (removeFl c.inFlight k) k' = true
    by_cases hk : k' = k
    · subst hk
      rw [if_pos rfl, flHas_removeFl_self]
      constructor
      · rintro ⟨e', he', hst⟩
        rw [Option.map_eq_some'] at he'
        obtain ⟨e0, _, rfl⟩ := he'
        exact EState.noConfusion hst
      · intro h
        exact Bool.noConfusion h
    · rw [if_neg hk, flHas_removeFl_ne c.inFlight hk]
      exact hiff k'

/-- Rejecting a fetch preserves the coordinator invariant. -/
theorem coordInv_reject {V : Type} (c : Coord V) (k : Key) (msg : String)
    (hInv : CoordInv c) : CoordInv (rejectFetch c k msg).1 := by
  obtain ⟨hnd, hiff⟩ := hInv
  constructor
  · show ((removeFl c.inFlight k).map Prod.fst).Nodup
    exact removeFl_keys_nodup c.inFlight k hnd
  · intro k'
    show (∃ e, (if k' = k then (c.entries k').map _ else c.entries k') =
        some e ∧ e.state = EState.FETCHING) ↔
      flHas (removeFl c.inFlight k) k' = true
    by_cases hk : k' = k
    · subst hk
      rw [if_pos rfl, flHas_removeFl_self]
      constructor
      · rintro ⟨e', he', hst⟩
        rw [Option.map_eq_some'] at he'
        obtain ⟨e0, _, rfl⟩ := he'
        exact EState.noConfusion hst
      · intro h
        exact Bool.noConfusion h
    · rw [if_neg hk, flHas_removeFl_ne c.inFlight hk]
      exact hiff k'

/-- While a fetch is in flight for a key with no cached value, every further
request for that key only attaches a follower: the invocation counter and
the entry are unchanged and the callers accumulate in order. -/
theorem requestN_attach {V : Type} (callers : List Nat) :
    ∀ (c : Coord V) (k : Key) (staleMs now : Nat) (e : FEntry V)
      (fs : List Nat), c.entries k = some e → e.value = none →
      lookupFl c.inFlight k = some fs →
      (requestN c callers k staleMs now).fetchCount = c.fetchCount ∧
      lookupFl (requestN c callers k staleMs now).inFlight k =
        some (fs ++ callers) := by
  induction callers with
  | nil =>
    intro c k staleMs now e fs he hv hl
    refine ⟨rfl, ?_⟩
    show lookupFl c.inFlight k = some (fs ++ [])
    rw [hl, List.append_nil]
  | cons a rest ih =>
    intro c k staleMs now e fs he hv hl
    have hif : hasInFlight c k = true := flHas_of_lookupFl _ _ _ hl
    have hreq : request c a k staleMs now = (ReqResult.suspended,
        { c with inFlight := attachFollower c.inFlight k a }) := by
      simp [request, he, hv, hif]
    have h2 : lookupFl ({ c with
        inFlight := attachFollower c.inFlight k a } : Coord V).inFlight k =
        some (fs ++ [a]) := by
      show lookupFl (attachFollower c.inFlight k a) k = some (fs ++ [a])
      rw [lookupFl_attach_self, hl]
      rfl
    obtain ⟨hc, hlk⟩ := ih ({ c with
      inFlight := attachFollower c.inFlight k a }) k staleMs now e
      (fs ++ [a]) he hv h2
    constructor
    · show (requestN (request c a k staleMs now).2 rest k staleMs
          now).fetchCount = c.fetchCount
      rw [hreq]
      exact hc
    · show lookupFl (requestN (request c a k staleMs now).2 rest k staleMs
          now).inFlight k = some (fs ++ a :: rest)
      rw [hreq, hlk, List.append_assoc, List.singleton_append]

/-- The empty coordinator satisfies the coordinator invariant. -/
theorem coord0_inv : CoordInv coord0 := by
  constructor
  · exact List.nodup_nil
  · intro k
    constructor
    · rintro ⟨e, he, _⟩
      exact Option.noConfusion he
    · intro h
      exact Bool.noConfusion h

/-- A request served from a FRESH cached value returns it and leaves the
coordinator untouched (section 4.3 step 2). -/
theorem request_fresh {V : Type} (c : Coord V) (k : Key) (e : FEntry V)
    (v : V) (caller staleMs now : Nat) (he : c.entries k = some e)
    (hv : e.value = some v) (hcl : classify e now = StaleClass.FRESH) :
    request c caller k staleMs now = (ReqResult.immediate v, c) := by
  simp [request, he, hv, hcl]

/-- Every key matched by the job-detail key `['jobs', 'detail', id]` is
already matched by the prefix `['jobs']`. -/
theorem keyMatches_detail_all (id : String) (k : Key)
    (h : keyMatches (jobKeys.detail id) k = true) :
    keyMatches jobKeys.all k = true := by
  have h1 : jobKeys.detail id <+: k := of_decide_eq_true h
  have h0 : jobKeys.all <+: jobKeys.detail id := ⟨["detail", id], rfl⟩
  exact decide_eq_true (h0.trans h1)

/-- Invalidating with the job-detail key after invalidating with the
`['jobs']` prefix does not change an entry further. -/
theorem invalidateEntry_twice {V : Type} (id : String) (k : Key)
    (e : IEntry V) :
    invalidateEntry (jobKeys.detail id) k (invalidateEntry jobKeys.all k e) =
      invalidateEntry jobKeys.all k e := by
  unfold invalidateEntry
  by_cases ha : keyMatches jobKeys.all k = true ∧ e.state ≠ EState.EMPTY
  · rw [if_pos ha]
    by_cases hd : keyMatches (jobKeys.detail id) k = true
    · rw [if_pos ⟨hd, fun hh => EState.noConfusion hh⟩]
    · rw [if_neg (fun hc => hd hc.1)]
  · rw [if_neg ha]
    by_cases hd : keyMatches (jobKeys.detail id) k = true ∧
        e.state ≠ EState.EMPTY
    · exact absurd ⟨keyMatches_detail_all id k hd.1, hd.2⟩ ha
    · rw [if_neg hd]

/-- A refetch triggered by the job-detail key on the `['jobs']`-invalidated
store would already have been triggered by the `['jobs']` invalidation. -/
theorem refetchTrigger_detail_all {V : Type} (id : String) (k : Key)
    (o : Option (IEntry V))
    (h : refetchTrigger (jobKeys.detail id) k
        (o.map (invalidateEntry jobKeys.all k)) = true) :
    refetchTrigger jobKeys.all k o = true := by
  cases o with
  | none => exact absurd h (by simp [refetchTrigger])
  | some e =>
    simp only [Option.map_some', refetchTrigger, Bool.and_eq_true,
      decide_eq_true_eq] at h ⊢
    obtain ⟨⟨hd, hne⟩, hsub⟩ := h
    refine ⟨⟨keyMatches_detail_all id k hd, ?_⟩, ?_⟩
    · intro he
      have : invalidateEntry jobKeys.all k e = e := by
        unfold invalidateEntry
        rw [if_neg (fun hc => hc.2 he)]
      rw [this] at hne
      exact hne he
    · intro hs
      apply hsub
      unfold invalidateEntry
      by_cases hc : keyMatches jobKeys.all k = true ∧ e.state ≠ EState.EMPTY
      · rw [if_pos hc]; exact hs
      · rw [if_neg hc]; exact hs

/-- Claim C1 fails as stated: the stored entry under `['jobs', 'active']`
has a key matched by the `['jobs']` prefix, yet invalidating `['jobs']`
leaves its state EMPTY (the MISSING case of section 4.4), not STALE. -/
theorem C1_counterexample :
    keyMatches jobKeys.all jobKeys.active = true ∧
    (invalidate cexState jobKeys.all).store jobKeys.active =
      some jobsActiveEmptyEntry ∧
    jobsActiveEmptyEntry.state ≠ EState.STALE := by
  decide

/-- Claim C1 (amended): invalidating with key prefix `['jobs']` sets a
stored entry's state to STALE exactly when its key equals `['jobs']` or
begins with `['jobs', ...]` and the entry is not in state EMPTY (a matching
entry that was never fetched is MISSING and is left unchanged); every entry
whose key does not begin with `['jobs']` is left unchanged. -/
theorem C1_invalidate_jobs_prefix {V : Type} (s : CState V) (k : Key)
    (e : IEntry V) (h : s.store k = some e) :
    (keyMatches jobKeys.all k = true → e.state ≠ EState.EMPTY →
      (invalidate s jobKeys.all).store k =
        some { e with state := EState.STALE }) ∧
    (keyMatches jobKeys.all k = true → e.state = EState.EMPTY →
      (invalidate s jobKeys.all).store k = some e) ∧
    (keyMatches jobKeys.all k = false →
      (invalidate s jobKeys.all).store k = some e) := by
  have hst : (invalidate s jobKeys.all).store k =
      some (invalidateEntry jobKeys.all k e) := by
    simp [invalidate, h]
  refine ⟨?_, ?_, ?_⟩
  · intro hm hne
    rw [hst]
    unfold invalidateEntry
    rw [if_pos ⟨hm, hne⟩]
  · intro hm he
    rw [hst]
    unfold invalidateEntry
    rw [if_neg (fun hc => hc.2 he)]
  · intro hm
    rw [hst]
    unfold invalidateEntry
    rw [if_neg (fun hc => by rw [hm] at hc; exact Bool.false_ne_true hc.1)]

/-- Instantiation of the amended claim C1 on a concrete cache state. -/
theorem C1_invalidate_jobs_prefix_witness :
    (keyMatches jobKeys.all jobKeys.active = true →
      jobsActiveFreshEntry.state ≠ EState.EMPTY →
      (invalidate sampleCState jobKeys.all).store jobKeys.active =
        some { jobsActiveFreshEntry with state := EState.STALE }) ∧
    (keyMatches jobKeys.all jobKeys.active = true →
      jobsActiveFreshEntry.state = EState.EMPTY →
      (invalidate sampleCState jobKeys.all).store jobKeys.active =
        some jobsActiveFreshEntry) ∧
    (keyMatches jobKeys.all jobKeys.active = false →
      (invalidate sampleCState jobKeys.all).store jobKeys.active =
        some jobsActiveFreshEntry) :=
  C1_invalidate_jobs_prefix sampleCState jobKeys.active jobsActiveFreshEntry
    (by decide)

/-- Claim C4: for every entry fetched at least once (state not EMPTY),
`classify` returns FRESH exactly when `now - fetchedAt < staleTimeMs`, so
with `staleTimeMs == 0` the entry is STALE immediately after any fetch; an
entry never fetched (state EMPTY) is reported MISSING, never STALE. -/
theorem C4_classify_fresh_iff {V : Type} (e : FEntry V) (now : Nat) :
    (e.state ≠ EState.EMPTY →
      (classify e now = StaleClass.FRESH ↔
        now - e.fetchedAt < e.staleTimeMs)) ∧
    (e.state ≠ EState.EMPTY → e.staleTimeMs = 0 →
      classify e now = StaleClass.STALE) ∧
    (e.state = EState.EMPTY →
      classify e now = StaleClass.MISSING ∧
        classify e now ≠ StaleClass.STALE) := by
  unfold classify
  refine ⟨?_, ?_, ?_⟩
  · intro h
    rw [if_neg h]
    by_cases hw : now - e.fetchedAt < e.staleTimeMs
    · simp [hw]
    · simp [hw]
  · intro h h0
    rw [if_neg h, h0]
    simp
  · intro h
    rw [if_pos h]
    exact ⟨rfl, by simp⟩

/-- Instantiation of claim C4 on a concrete entry. -/
theorem C4_classify_fresh_iff_witness :
    (staleUnitEntry.state ≠ EState.EMPTY →
      (classify staleUnitEntry 2000 = StaleClass.FRESH ↔
        2000 - staleUnitEntry.fetchedAt < staleUnitEntry.staleTimeMs)) ∧
    (staleUnitEntry.state ≠ EState.EMPTY → staleUnitEntry.staleTimeMs = 0 →
      classify staleUnitEntry 2000 = StaleClass.STALE) ∧
    (staleUnitEntry.state = EState.EMPTY →
      classify staleUnitEntry 2000 = StaleClass.MISSING ∧
        classify staleUnitEntry 2000 ≠ StaleClass.STALE) :=
  C4_classify_fresh_iff staleUnitEntry 2000

/-- Claim C8: for every retry attempt index `n`, the configured retry delay
equals `min(1000 * 2 ^ n, 30000)` milliseconds, so the delay sequence is
exponential with base 2, monotone non-decreasing in `n`, and never exceeds
the 30000 ms cap. -/
theorem C8_retryDelay_capped (n : Nat) :
    retryDelay n = min (1000 * 2 ^ n) 30000 ∧
    retryDelay n ≤ retryDelay (n + 1) ∧
    retryDelay n ≤ 30000 := by
  refine ⟨rfl, ?_, min_le_right _ _⟩
  unfold retryDelay
  exact min_le_min
    (Nat.mul_le_mul_left _ (Nat.pow_le_pow_right (by norm_num) (Nat.le_succ n)))
    le_rfl

/-- Claim C9: with an undefined `jobId`, `useApplicationStatus` disables its
query; its query function on a falsy `jobId` returns `{ applied: false }`
without invoking the remote API and without throwing, while `useJob`'s query
function throws `'Job ID is required'` on a falsy `jobId`. -/
theorem C9_blank_jobId {J : Type} (sapi : String → StatusResult)
    (japi : String → J) :
    useApplicationStatusEnabled none = false ∧
    useApplicationStatusQueryFn sapi none =
      (Except.ok { applied := false }, false) ∧
    useApplicationStatusQueryFn sapi (some "") =
      (Except.ok { applied := false }, false) ∧
    useJobQueryFn japi none = (Except.error "Job ID is required", false) ∧
    useJobQueryFn japi (some "") =
      (Except.error "Job ID is required", false) :=
  ⟨rfl, rfl, rfl, rfl, rfl⟩

/-- Claim C10: the two invalidations performed by `useUpdateJob` on success
(first with `jobKeys.all = ['jobs']`, then with
`jobKeys.detail(id) = ['jobs', 'detail', id]`) produce the same cache state
as invalidating with `jobKeys.all` alone, since under prefix matching every
key matched by the detail key is already matched by `['jobs']`. -/
theorem C10_update_invalidations_equiv {V : Type} (s : CState V)
    (id : String) :
    invalidate (invalidate s jobKeys.all) (jobKeys.detail id) =
      invalidate s jobKeys.all := by
  refine CState.ext ?_ ?_
  · funext k
    show ((s.store k).map (invalidateEntry jobKeys.all k)).map
        (invalidateEntry (jobKeys.detail id) k) =
      (s.store k).map (invalidateEntry jobKeys.all k)
    cases hsk : s.store k with
    | none => rfl
    | some e =>
      simp only [Option.map_some']
      rw [invalidateEntry_twice]
  · funext k
    show ((s.inFlight k || refetchTrigger jobKeys.all k (s.store k)) ||
        refetchTrigger (jobKeys.detail id) k
          ((s.store k).map (invalidateEntry jobKeys.all k))) =
      (s.inFlight k || refetchTrigger jobKeys.all k (s.store k))
    cases hd : refetchTrigger (jobKeys.detail id) k
        ((s.store k).map (invalidateEntry jobKeys.all k)) with
    | false => rw [Bool.or_false]
    | true =>
      rw [refetchTrigger_detail_all id k (s.store k) hd]
      simp

/-- Claim C5: for every key with a successful fetch at time `t`, a request
at any later time `t'` still inside the freshness window (`t' - t <
staleTimeMs`) returns the cached value, leaves the coordinator unchanged,
and does not invoke `fetchFn` again (the invocation counter is unchanged). -/
theorem C5_fresh_window_no_refetch {V : Type} (c : Coord V) (k : Key)
    (e : FEntry V) (v : V) (caller staleMs t t' : Nat)
    (he : c.entries k = some e) (hwin : t' - t < e.staleTimeMs) :
    request (resolveFetch c k v t).1 caller k staleMs t' =
      (ReqResult.immediate v, (resolveFetch c k v t).1) ∧
    ((request (resolveFetch c k v t).1 caller k staleMs t').2).fetchCount =
      c.fetchCount := by
  have hentry : (resolveFetch c k v t).1.entries k =
      some { value := some v, fetchedAt := t, state := EState.FRESH,
             err := none, staleTimeMs := e.staleTimeMs } := by
    simp [resolveFetch, he]
  have hreq := request_fresh (resolveFetch c k v t).1 k
    { value := some v, fetchedAt := t, state := EState.FRESH, err := none,
      staleTimeMs := e.staleTimeMs } v caller staleMs t' hentry rfl
    (by simp [classify, hwin])
  refine ⟨hreq, ?_⟩
  rw [hreq]
  simp [resolveFetch]

/-- Instantiation of claim C5: a fetched value is still served from cache
500 ms after a fetch under a 1000 ms freshness window, with no new
`fetchFn` invocation. -/
theorem C5_fresh_window_no_refetch_witness :
    request (resolveFetch coordStale jobKeys.active () 0).1 7 jobKeys.active
        1000 500 =
      (ReqResult.immediate (), (resolveFetch coordStale jobKeys.active () 0).1) ∧
    ((request (resolveFetch coordStale jobKeys.active () 0).1 7 jobKeys.active
        1000 500).2).fetchCount = coordStale.fetchCount :=
  C5_fresh_window_no_refetch coordStale jobKeys.active staleUnitEntry () 7
    1000 0 500 (by decide) (by decide)

/-- Claim C6: for every key whose entry is present and STALE, a request
returns the previously cached value synchronously (the caller does not
suspend), and triggers exactly one new background fetch when no
InFlightFetch exists for the key, and none when one already exists. -/
theorem C6_stale_background_refetch {V : Type} (c : Coord V) (k : Key)
    (e : FEntry V) (v : V) (caller staleMs now : Nat)
    (he : c.entries k = some e) (hv : e.value = some v)
    (hst : classify e now = StaleClass.STALE) :
    (request c caller k staleMs now).1 = ReqResult.immediate v ∧
    (hasInFlight c k = true → (request c caller k staleMs now).2 = c) ∧
    (hasInFlight c k = false →
      (request c caller k staleMs now).2.fetchCount = c.fetchCount + 1 ∧
      hasInFlight (request c caller k staleMs now).2 k = true) := by
  have hreq : request c caller k staleMs now =
      if hasInFlight c k = true then (ReqResult.immediate v, c)
      else (ReqResult.immediate v, startFetch c k [] staleMs) := by
    simp [request, he, hv, hst]
  refine ⟨?_, ?_, ?_⟩
  · rw [hreq]
    by_cases hif : hasInFlight c k = true
    · rw [if_pos hif]
    · rw [if_neg hif]
  · intro hif
    rw [hreq, if_pos hif]
  · intro hif
    rw [hreq, if_neg (by rw [hif]; exact Bool.false_ne_true)]
    constructor
    · simp [startFetch]
    · simp [hasInFlight, startFetch, flHas_append, flHas_singleton]

/-- Instantiation of claim C6 on a concrete stale entry with no fetch in
flight: the stale value is returned and one background fetch starts. -/
theorem C6_stale_background_refetch_witness :
    (request coordStale 7 jobKeys.active 1000 5000).1 =
      ReqResult.immediate () ∧
    (hasInFlight coordStale jobKeys.active = true →
      (request coordStale 7 jobKeys.active 1000 5000).2 = coordStale) ∧
    (hasInFlight coordStale jobKeys.active = false →
      (request coordStale 7 jobKeys.active 1000 5000).2.fetchCount =
        coordStale.fetchCount + 1 ∧
      hasInFlight (request coordStale 7 jobKeys.active 1000 5000).2
        jobKeys.active = true) :=
  C6_stale_background_refetch coordStale jobKeys.active staleUnitEntry () 7
    1000 5000 (by decide) (by decide) (by decide)

/-- Claim C2: when every attempt of the underlying `fetchFn` fails, the
configured retry count of 1 makes the coordinator invoke `fetchFn` exactly
2 times in total, leaves the entry in state ERROR, and preserves the entry's
previous value unchanged (stale-while-error). -/
theorem C2_retry_exhaustion {V : Type} (c : Coord V) (k : Key) (e : FEntry V)
    (fetchFn : Nat → Except String V) (now : Nat)
    (hfail : ∀ i, ∃ s, fetchFn i = Except.error s)
    (he : c.entries k = some e) :
    (settleFetch c k fetchFn now).2.2 = 2 ∧
    ∃ e', (settleFetch c k fetchFn now).1.entries k = some e' ∧
      e'.state = EState.ERROR ∧ e'.value = e.value := by
  obtain ⟨s0, h0⟩ := hfail 0
  obtain ⟨s1, h1⟩ := hfail 1
  have hrun : fetchWithRetry fetchFn 0 retryCount = (Except.error s1, 2) := by
    rw [retryCount, fetchWithRetry, h0]
    simp only []
    rw [fetchWithRetry, h1]
  have hset : settleFetch c k fetchFn now =
      ((rejectFetch c k s1).1, (rejectFetch c k s1).2, 2) := by
    unfold settleFetch
    rw [hrun]
  rw [hset]
  refine ⟨rfl, ?_⟩
  refine ⟨{ e with state := EState.ERROR, err := some s1 }, ?_, rfl, rfl⟩
  simp [rejectFetch, he]

/-- Instantiation of claim C2: a fetch that fails on every attempt is
invoked exactly twice, the entry ends in state ERROR and its previous value
is kept. -/
theorem C2_retry_exhaustion_witness :
    (settleFetch coordStale jobKeys.active
        (fun _ => Except.error "network down") 5).2.2 = 2 ∧
    ∃ e', (settleFetch coordStale jobKeys.active
        (fun _ => Except.error "network down") 5).1.entries jobKeys.active =
        some e' ∧
      e'.state = EState.ERROR ∧ e'.value = staleUnitEntry.value :=
  C2_retry_exhaustion coordStale jobKeys.active staleUnitEntry
    (fun _ => Except.error "network down") 5
    (fun _ => ⟨"network down", rfl⟩) (by decide)

/-- Claim C7: `sweep(now)` removes a stored entry exactly when its
subscriber count is zero, its idle time has reached `gcTimeMs`, and no
InFlightFetch is active for its key; in particular a re-subscribed entry
(positive subscriber count) stays, and an entry with an active InFlightFetch
is never removed. -/
theorem C7_sweep_removal (store : List (Key × GCEntry))
    (inFlightKeys : List Key) (now : Nat) (p : Key × GCEntry)
    (hp : p ∈ store) :
    (p ∈ sweep store inFlightKeys now ↔
      ¬(p.2.subscriberCount = 0 ∧
        p.2.gcTimeMs ≤ now - p.2.lastSubscriberReleasedAt ∧
        p.1 ∉ inFlightKeys)) ∧
    (0 < p.2.subscriberCount → p ∈ sweep store inFlightKeys now) ∧
    (p.1 ∈ inFlightKeys → p ∈ sweep store inFlightKeys now) := by
  have hmem : p ∈ sweep store inFlightKeys now ↔
      ¬(p.2.subscriberCount = 0 ∧
        p.2.gcTimeMs ≤ now - p.2.lastSubscriberReleasedAt ∧
        p.1 ∉ inFlightKeys) := by
    simp only [sweep, List.mem_filter, hp, true_and, Bool.not_eq_true',
      decide_eq_false_iff_not]
  refine ⟨hmem, ?_, ?_⟩
  · intro hs
    rw [hmem]
    intro hc
    omega
  · intro hin
    rw [hmem]
    intro hc
    exact hc.2.2 hin

/-- Instantiation of claim C7: an idle zero-subscriber entry whose idle
window has elapsed and whose key has a fetch in flight is kept by the
sweep. -/
theorem C7_sweep_removal_witness :
    ((jobKeys.active, idleGCEntry) ∈
        sweep [(jobKeys.active, idleGCEntry)] [jobKeys.active] 600000 ↔
      ¬(idleGCEntry.subscriberCount = 0 ∧
        idleGCEntry.gcTimeMs ≤ 600000 - idleGCEntry.lastSubscriberReleasedAt ∧
        jobKeys.active ∉ [jobKeys.active])) ∧
    (0 < idleGCEntry.subscriberCount →
      (jobKeys.active, idleGCEntry) ∈
        sweep [(jobKeys.active, idleGCEntry)] [jobKeys.active] 600000) ∧
    (jobKeys.active ∈ [jobKeys.active] →
      (jobKeys.active, idleGCEntry) ∈
        sweep [(jobKeys.active, idleGCEntry)] [jobKeys.active] 600000) :=
  C7_sweep_removal [(jobKeys.active, idleGCEntry)] [jobKeys.active] 600000
    (jobKeys.active, idleGCEntry) (by decide)

/-- Claim C3: the in-flight keys stay duplicate-free (at most one
InFlightFetch per key) and an entry's state is FETCHING exactly when an
InFlightFetch exists for its key — both preserved by every coordinator
step — and `N ≥ 1` simultaneous requests for the same missing key invoke
`fetchFn` exactly once, with all `N` callers attached as followers of the
single InFlightFetch and settled together with its single result. -/
theorem C3_single_inflight_dedup {V : Type} (c cg : Coord V)
    (hInvg : CoordInv cg) (caller : Nat) (kg k : Key) (staleMs now : Nat)
    (v : V) (msg : String) (callers : List Nat)
    (hmiss : c.entries k = none) (hnif : hasInFlight c k = false)
    (hne : callers ≠ []) :
    CoordInv (request cg caller kg staleMs now).2 ∧
    CoordInv (resolveFetch cg kg v now).1 ∧
    CoordInv (rejectFetch cg kg msg).1 ∧
    (requestN c callers k staleMs now).fetchCount = c.fetchCount + 1 ∧
    lookupFl (requestN c callers k staleMs now).inFlight k = some callers ∧
    (resolveFetch (requestN c callers k staleMs now) k v now).2 = callers := by
  refine ⟨coordInv_request cg caller kg staleMs now hInvg,
    coordInv_resolve cg kg v now hInvg,
    coordInv_reject cg kg msg hInvg, ?_⟩
  obtain ⟨a, rest, rfl⟩ := List.exists_cons_of_ne_nil hne
  have hreq : request c a k staleMs now =
      (ReqResult.suspended, startFetch c k [a] staleMs) := by
    simp [request, hmiss, hnif]
  have h1 : (startFetch c k [a] staleMs).entries k =
      some (newFetchingEntry (c.entries k) staleMs) := by
    show (if k = k then some (newFetchingEntry (c.entries k) staleMs)
      else c.entries k) = _
    rw [if_pos rfl]
  have hv1 : (newFetchingEntry (c.entries k) staleMs).value = none := by
    rw [hmiss]
    rfl
  have h2 : lookupFl (startFetch c k [a] staleMs).inFlight k = some [a] := by
    show lookupFl (c.inFlight ++ [(k, [a])]) k = some [a]
    exact lookupFl_append_right c.inFlight k [a] hnif
  obtain ⟨hc, hlk⟩ := requestN_attach rest (startFetch c k [a] staleMs) k
    staleMs now (newFetchingEntry (c.entries k) staleMs) [a] h1 hv1 h2
  have hkey : lookupFl (requestN c (a :: rest) k staleMs now).inFlight k =
      some (a :: rest) := by
    show lookupFl (requestN (request c a k staleMs now).2 rest k staleMs
      now).inFlight k = some (a :: rest)
    rw [hreq, hlk, List.singleton_append]
  refine ⟨?_, hkey, ?_⟩
  · show (requestN (request c a k staleMs now).2 rest k staleMs
      now).fetchCount = c.fetchCount + 1
    rw [hreq, hc]
    rfl
  · show (lookupFl (requestN c (a :: rest) k staleMs now).inFlight k).getD
      [] = a :: rest
    rw [hkey]
    rfl

/-- Instantiation of claim C3 on the empty coordinator with two
simultaneous callers. -/
theorem C3_single_inflight_dedup_witness :
    CoordInv (request coord0 0 jobKeys.active 1000 0).2 ∧
    CoordInv (resolveFetch coord0 jobKeys.active () 0).1 ∧
    CoordInv (rejectFetch coord0 jobKeys.active "boom").1 ∧
    (requestN coord0 [1, 2] jobKeys.active 1000 0).fetchCount =
      coord0.fetchCount + 1 ∧
    lookupFl (requestN coord0 [1, 2] jobKeys.active 1000 0).inFlight
      jobKeys.active = some [1, 2] ∧
    (resolveFetch (requestN coord0 [1, 2] jobKeys.active 1000 0)
      jobKeys.active () 0).2 = [1, 2] :=
  C3_single_inflight_dedup coord0 coord0 coord0_inv 0 jobKeys.active
    jobKeys.active 1000 0 () "boom" [1, 2] rfl rfl (by decide)
